import Mathlib

/-!
# Verification of the Yumeri-Craft-SDK core against its specification

This file gives a shallow embedding, in Lean 4, of the parts of the
Yumeri-Craft-SDK TypeScript sources that the specification's claims are
about:

* the launch materializer (`src/launchers/game-launcher.ts`):
  classpath construction, rule evaluation, placeholder substitution and
  argument processing, command generation and process argv reconstruction;
* the download engine (`src/utils/downloader.ts`): single-file download
  with SHA-1 verification and cleanup, and the bounded-concurrency batch;
* the version resolver (`src/downloaders/version-manager.ts`): the
  two-level manifest cache;
* the library rule filter (`src/downloaders/libraries-downloader.ts`);
* the mod-loader merges (`FabricInstaller.mergeFabricConfig`,
  `ForgeInstaller.mergeForgeConfig`) and `FabricInstaller.installFabric`.

Strings are modelled as `List Char` (`Str`) so that the character-level
operations the code performs (JavaScript `String.split(' ')`,
`includes`, `startsWith`, regex placeholder scanning and global
replacement) can be defined structurally and reasoned about by
induction.  JavaScript numbers that only ever flow into string
positions are modelled by `Nat` rendered with `Nat.repr`.
-/

/-- Strings as character lists, the model of JavaScript strings. -/
abbrev Str := List Char

/-- Convert a Lean string literal to the `Str` model. -/
def s2l (s : String) : Str := s.data

/-- The `\x7b` character (opening curly brace). -/
def obraceC : Char := '\x7b'

/-- The `\x7d` character (closing curly brace). -/
def cbraceC : Char := '\x7d'

/-- JavaScript `a.includes(b)`: substring containment test. -/
def containsSub (s pat : Str) : Bool :=
  match s with
  | [] => pat.isEmpty
  | _ :: rest => pat.isPrefixOf s || containsSub rest pat

/-- JavaScript `a.startsWith(b)`. -/
def startsWithStr (s pat : Str) : Bool := pat.isPrefixOf s

/-- JavaScript `command.split(' ')`: split on every single space,
keeping empty fragments (so `"a  b".split(' ') = ["a","","b"]` and
`"".split(' ') = [""]`). -/
def splitSpace : Str → List Str
  | [] => [[]]
  | c :: rest =>
    if c = ' ' then [] :: splitSpace rest
    else
      match splitSpace rest with
      | [] => [[c]]
      | h :: t => (c :: h) :: t

/-- JavaScript `args.join(' ')`. -/
def joinSpace : List Str → Str
  | [] => []
  | [s] => s
  | s :: rest => s ++ ' ' :: joinSpace rest

/-- Join a list of strings with a single separator character (the model of
`path.join(...)` on already-clean segments, and of `Array.join`). -/
def joinSep (sep : Char) : List Str → Str
  | [] => []
  | [s] => s
  | s :: rest => s ++ sep :: joinSep sep rest

/-- JavaScript `s.toLowerCase()` (ASCII case folding suffices for hex digests). -/
def toLowerStr (s : Str) : Str := s.map Char.toLower

/-- Render a JavaScript number (`n.toString()`) for a natural value. -/
def natToStr (n : Nat) : Str := (Nat.repr n).data

/-- Render a JavaScript boolean (`b.toString()`). -/
def boolToStr (b : Bool) : Str := if b then s2l "true" else s2l "false"

/-- JavaScript truthiness of an optional string (`undefined` and `''` are falsy). -/
def truthyS : Option Str → Bool
  | some s => !s.isEmpty
  | none => false

/-- JavaScript truthiness of an optional number (`undefined` and `0` are falsy). -/
def truthyN : Option Nat → Bool
  | some n => n != 0
  | none => false

/-- JavaScript truthiness of an optional boolean. -/
def truthyB : Option Bool → Bool
  | some b => b
  | none => false

/-- JavaScript `a || d` for strings: `a` unless it is undefined or empty. -/
def orDefaultStr (o : Option Str) (d : Str) : Str :=
  match o with
  | some s => if s.isEmpty then d else s
  | none => d

/-- A string-valued field coerced through JavaScript truthiness:
`some s` survives only when `s` is non-empty (`if (x) { ... }`). -/
def strPresent : Option Str → Option Str
  | some s => if s.isEmpty then none else some s
  | none => none

/-- The host platform, as reported by Node's `os.platform()` (`"win32"`,
`"darwin"`, `"linux"`, ...) and `os.arch()` (`"x64"`, `"ia32"`, `"arm64"`,
`"arm"`, ...). -/
structure Host where
  platform : Str
  arch : Str
deriving DecidableEq

/-- The `os` clause of a rule (`{name?, arch?}`; the optional `version`
field is never inspected by the code and is omitted). -/
structure OsRule where
  name : Option Str := none
  arch : Option Str := none
deriving DecidableEq

/-- The `features` clause of a rule.  Each field is `some b` when the JSON
object defines the flag (`featuresRule.<flag> !== undefined`). -/
structure FeaturesRule where
  has_custom_resolution : Option Bool := none
  is_demo_user : Option Bool := none
  has_quick_plays_support : Option Bool := none
  is_quick_play_singleplayer : Option Bool := none
  is_quick_play_multiplayer : Option Bool := none
  is_quick_play_realms : Option Bool := none
deriving DecidableEq

/-- A rule.  `action` is the raw JSON string (the code compares it with
`=== 'allow'` / `=== 'disallow'` and silently skips anything else). -/
structure Rule where
  action : Str
  os : Option OsRule := none
  features : Option FeaturesRule := none
deriving DecidableEq

/-- The runtime `LaunchArguments` object (src/types/index.ts).  Optional
string fields model the TypeScript optional fields; numeric fields are
`Option Nat` (they reach the command line through `toString()`); `extra`
models the free-form index-signature entries, stringified at the
boundary as the spec's design notes direct.  A field that is `none`
behaves like a property that is absent or `undefined` — the two cases
are indistinguishable to `replaceArguments` (a present-but-`undefined`
property also fails the `!== undefined` check). -/
structure LaunchArguments where
  username : Option Str := none
  accessToken : Option Str := none
  uuid : Option Str := none
  userType : Option Str := none
  gameDirectory : Option Str := none
  assetsDirectory : Option Str := none
  assetIndex : Option Str := none
  versionName : Option Str := none
  versionType : Option Str := none
  width : Option Nat := none
  height : Option Nat := none
  fullscreen : Option Bool := none
  serverHost : Option Str := none
  serverPort : Option Nat := none
  proxyHost : Option Str := none
  proxyPort : Option Nat := none
  proxyUser : Option Str := none
  proxyPass : Option Str := none
  customJvmArgs : Option (List Str) := none
  customGameArgs : Option (List Str) := none
  maxMemory : Option Nat := none
  minMemory : Option Nat := none
  isDemoUser : Option Bool := none
  quickPlayPath : Option Str := none
  quickPlaySingleplayer : Option Str := none
  quickPlayMultiplayer : Option Str := none
  quickPlayRealms : Option Str := none
  clientId : Option Str := none
  xuid : Option Str := none
  extra : List (Str × Str) := []
deriving DecidableEq

/-- `GameLauncher.matchesOs` (game-launcher.ts:492-526): the `os.name`
switch maps `windows`/`osx`/`linux` to the Node platform names and an
unknown name never matches; the `os.arch` switch accepts `x86` (on
`ia32`) and `x64` and an unknown arch never matches; an absent clause
imposes no constraint. -/
def matchesOs (host : Host) (osRule : OsRule) : Bool :=
  (match osRule.name with
   | some n =>
     if n = s2l "windows" then host.platform = s2l "win32"
     else if n = s2l "osx" then host.platform = s2l "darwin"
     else if n = s2l "linux" then host.platform = s2l "linux"
     else false
   | none => true)
  &&
  (match osRule.arch with
   | some a =>
     if a = s2l "x86" then host.arch = s2l "ia32"
     else if a = s2l "x64" then host.arch = s2l "x64"
     else false
   | none => true)

/-- `GameLauncher.matchesFeatures` (game-launcher.ts:534-574): every
feature flag that the rule defines with value `true` must be backed by
the corresponding (truthy) launch argument. -/
def matchesFeatures (f : FeaturesRule) (la : LaunchArguments) : Bool :=
  (match f.has_custom_resolution with
   | some b => !(b && (!truthyN la.width || !truthyN la.height))
   | none => true)
  && (match f.is_demo_user with
   | some b => !(b && !truthyB la.isDemoUser)
   | none => true)
  && (match f.has_quick_plays_support with
   | some b => !(b && !truthyS la.quickPlayPath)
   | none => true)
  && (match f.is_quick_play_singleplayer with
   | some b => !(b && !truthyS la.quickPlaySingleplayer)
   | none => true)
  && (match f.is_quick_play_multiplayer with
   | some b => !(b && !truthyS la.quickPlayMultiplayer)
   | none => true)
  && (match f.is_quick_play_realms with
   | some b => !(b && !truthyS la.quickPlayRealms)
   | none => true)

/-- The per-rule `matches` flag computed inside both branches of
`GameLauncher.evaluateRules`: the rule's `os` and `features` clauses,
when present, must both match. -/
def ruleMatches (host : Host) (la : LaunchArguments) (r : Rule) : Bool :=
  (match r.os with
   | some o => matchesOs host o
   | none => true)
  && (match r.features with
   | some f => matchesFeatures f la
   | none => true)

/-- `GameLauncher.evaluateRules` (game-launcher.ts:445-485): `allowed`
starts `false`; a matching `allow` rule sets it `true`, a matching
`disallow` rule sets it back `false`, rules with any other action are
skipped; iteration always runs to the end of the list. -/
def evaluateRules (host : Host) (la : LaunchArguments) (rules : List Rule) : Bool :=
  rules.foldl
    (fun allowed r =>
      if r.action = s2l "allow" then
        (if ruleMatches host la r then true else allowed)
      else if r.action = s2l "disallow" then
        (if ruleMatches host la r then false else allowed)
      else allowed)
    false

/-- The materializer's launch-time configuration: the SDK data directory,
the optional launcher identity, the host platform, the path separator
used by `path.join` and the classpath separator `path.delimiter`. -/
structure LauncherEnv where
  dataDir : Str
  launcherName : Option Str := none
  launcherVersion : Option Str := none
  host : Host
  psep : Char := '/'
  pdelim : Char := ':'

/-- A `DownloadEntry` (`downloads.artifact` or a classifier entry). -/
structure DownloadEntry where
  path : Str
  sha1 : Option Str := none
  size : Nat := 0
  url : Str := []
deriving DecidableEq

/-- The `downloads` object of a library. -/
structure LibDownloads where
  artifact : Option DownloadEntry := none
  classifiers : List (Str × DownloadEntry) := []
deriving DecidableEq

/-- A library of a version descriptor.  The unused `extract` clause is
omitted; `natives` is the os-to-classifier map, only its presence is
inspected by the classpath builder. -/
structure Library where
  name : Str
  downloads : Option LibDownloads := none
  rules : Option (List Rule) := none
  natives : Option (List (Str × Str)) := none
deriving DecidableEq

/-- `LibrariesDownloader.getOsName` (libraries-downloader.ts:77-83). -/
def getOsName (host : Host) : Str :=
  if host.platform = s2l "win32" then s2l "windows"
  else if host.platform = s2l "darwin" then s2l "osx"
  else if host.platform = s2l "linux" then s2l "linux"
  else host.platform

/-- `LibrariesDownloader.getOsArchitecture` (libraries-downloader.ts:89-96). -/
def getOsArchitecture (host : Host) : Str :=
  if host.arch = s2l "x64" then s2l "x64"
  else if host.arch = s2l "ia32" then s2l "x86"
  else if host.arch = s2l "arm64" then s2l "arm64"
  else if host.arch = s2l "arm" then s2l "arm"
  else host.arch

/-- The `appliesToOs` test inside `LibrariesDownloader.isLibraryApplicable`
(libraries-downloader.ts:57): `!rule.os || (rule.os.name === currentOs.name
&& (!rule.os.arch || rule.os.arch === currentOs.arch))`.  Note that an
`os` clause without a `name` never applies here (`undefined === name` is
false), unlike the launcher's `matchesOs`. -/
def libRuleAppliesToOs (host : Host) (r : Rule) : Bool :=
  match r.os with
  | none => true
  | some o =>
    (match o.name with
     | some n => n = getOsName host
     | none => false)
    && (match o.arch with
     | some a => a = getOsArchitecture host
     | none => true)

/-- The rule loop of `LibrariesDownloader.isLibraryApplicable`
(libraries-downloader.ts:56-70): a matching `allow` records `true`, a
matching `disallow` returns `false` immediately, anything else is
skipped. -/
def isLibApplicableGo (host : Host) : List Rule → Bool → Bool
  | [], acc => acc
  | r :: rest, acc =>
    if r.action = s2l "allow" then
      isLibApplicableGo host rest (if libRuleAppliesToOs host r then true else acc)
    else if r.action = s2l "disallow" then
      if libRuleAppliesToOs host r then false else isLibApplicableGo host rest acc
    else isLibApplicableGo host rest acc

/-- `LibrariesDownloader.isLibraryApplicable` (libraries-downloader.ts:43-71):
no rules (or an empty rule list) means applicable; otherwise run the loop
with `isAllowed = false`. -/
def isLibraryApplicable (host : Host) (library : Library) : Bool :=
  match library.rules with
  | none => true
  | some rules =>
    if rules.isEmpty then true
    else isLibApplicableGo host rules false

/-- Modelled from the spec (for comparison with the code): "applicability
is decided by iterating the rules left-to-right and taking the action of
the last rule that matches the host OS/arch/features (no short-circuit on
a matching disallow)", and "a rule list in which no rule matches leaves
the entry not applicable". -/
def lastMatchAllowedSpec (host : Host) (la : LaunchArguments) (rules : List Rule) : Bool :=
  match (rules.filter (fun r => ruleMatches host la r)).getLast? with
  | some r => r.action = s2l "allow"
  | none => false

/-- Variant-2 `GameLauncher.matchesOs` (game-launcher.ts:1073-1090): only
the `os.name` clause is consulted. -/
def matchesOs2 (host : Host) (osRule : OsRule) : Bool :=
  match osRule.name with
  | some n =>
    if n = s2l "windows" then host.platform = s2l "win32"
    else if n = s2l "osx" then host.platform = s2l "darwin"
    else if n = s2l "linux" then host.platform = s2l "linux"
    else false
  | none => true

/-- Variant-2 `GameLauncher.matchesFeatures` (game-launcher.ts:1097-1109):
every feature is reported as unsupported. -/
def matchesFeatures2 (_ : FeaturesRule) : Bool := false

/-- The per-rule `matches` flag of variant-2 `GameLauncher.evaluateRules`. -/
def ruleMatches2 (host : Host) (r : Rule) : Bool :=
  (match r.os with
   | some o => matchesOs2 host o
   | none => true)
  && (match r.features with
   | some f => matchesFeatures2 f
   | none => true)

/-- Variant-2 `GameLauncher.evaluateRules` (game-launcher.ts:1026-1066):
same last-match loop as variant 1, with the variant-2 matchers. -/
def evaluateRules2 (host : Host) (rules : List Rule) : Bool :=
  rules.foldl
    (fun allowed r =>
      if r.action = s2l "allow" then
        (if ruleMatches2 host r then true else allowed)
      else if r.action = s2l "disallow" then
        (if ruleMatches2 host r then false else allowed)
      else allowed)
    false

/-- An entry of an `arguments.jvm` / `arguments.game` array: a plain
string, a `{rules, value}` record, or any other JSON value (skipped). -/
inductive ArgValItem where
  | str (s : Str)
  | other
deriving DecidableEq

/-- The `value` of a `{rules, value}` record: a string, an array, or
any other shape (ignored). -/
inductive ArgValue where
  | vstr (s : Str)
  | varr (items : List ArgValItem)
  | vother
deriving DecidableEq

/-- A member of an argument array as `processArgumentArray` sees it. -/
inductive ArgEntry where
  | plain (s : Str)
  | gated (rules : List Rule) (value : ArgValue)
  | other
deriving DecidableEq

/-- The `arguments` object of a version descriptor. -/
structure ArgumentsObj where
  jvm : Option (List ArgEntry) := none
  game : Option (List ArgEntry) := none
deriving DecidableEq

/-- A version descriptor (`VersionInfo` in src/types): the fields that
the classpath builder, the merges and the launch materializer read. -/
structure VersionInfo where
  id : Option Str := none
  mainClass : Option Str := none
  libraries : Option (List Library) := none
  arguments : Option ArgumentsObj := none
  minecraftArguments : Option Str := none
  inheritsFrom : Option Str := none
  jar : Option Str := none
  fabricVersion : Option Str := none
  forgeVersion : Option Str := none
deriving DecidableEq

/-- The libraries of a descriptor, with an absent list read as empty. -/
def libsOf (vj : VersionInfo) : List Library := vj.libraries.getD []

/-- `GameLauncher.buildClasspath` (game-launcher.ts:181-211, the primary
variant): walk the libraries in descriptor order; skip a library whose
`rules` exist and evaluate to false (against an empty `LaunchArguments`),
skip a library with a `natives` map, append
`<dataDir>/libraries/<artifact.path>` when `downloads.artifact` exists;
finally append `<dataDir>/versions/<name>/<name>.jar`; join with
`path.delimiter`. -/
def buildClasspath (env : LauncherEnv) (vj : VersionInfo) (versionName : Str) : Str :=
  let entries :=
    (match vj.libraries with
     | none => []
     | some libs =>
       libs.flatMap (fun lib =>
         if (match lib.rules with
             | some rs => !evaluateRules env.host {} rs
             | none => false) then []
         else if lib.natives.isSome then []
         else
           match lib.downloads.bind (fun d => d.artifact) with
           | some a => [joinSep env.psep [env.dataDir, s2l "libraries", a.path]]
           | none => []))
  joinSep env.pdelim
    (entries ++ [joinSep env.psep [env.dataDir, s2l "versions", versionName, versionName ++ s2l ".jar"]])

/-- Variant-2 `GameLauncher.buildClasspath` (game-launcher.ts:742-772):
the main JAR is appended FIRST, then the libraries in descriptor order
(skipping rule-failing libraries and those whose `name` contains
`natives`). -/
def buildClasspath2 (env : LauncherEnv) (vj : VersionInfo) (versionName : Str) : Str :=
  let mainJar := joinSep env.psep [env.dataDir, s2l "versions", versionName, versionName ++ s2l ".jar"]
  let entries :=
    (match vj.libraries with
     | none => []
     | some libs =>
       libs.flatMap (fun lib =>
         if (match lib.rules with
             | some rs => !evaluateRules2 env.host rs
             | none => false) then []
         else if containsSub lib.name (s2l "natives") then []
         else
           match lib.downloads.bind (fun d => d.artifact) with
           | some a => [joinSep env.psep [env.dataDir, s2l "libraries", a.path]]
           | none => []))
  joinSep env.pdelim (mainJar :: entries)

/-- Scan the text after the first key character for the closing brace of
a `$\x7b...\x7d` placeholder: succeed at the first `\x7d`, fail at a line
break (the regex `.` cannot cross one) or at end of input.  Returns the
scanned key characters and the remainder after the closing brace. -/
def scanToClose : List Char → Option (Str × Str)
  | [] => none
  | c :: rest =>
    if c = cbraceC then some ([], rest)
    else if c = '\n' ∨ c = '\r' then none
    else
      match scanToClose rest with
      | none => none
      | some (k, r) => some (c :: k, r)

/-- Match the non-greedy `(.+?)\x7d` part of the placeholder regex on the
text following `$\x7b`: at least one non-break character, then up to the
first closing brace. -/
def grabKey : List Char → Option (Str × Str)
  | [] => none
  | c :: rest =>
    if c = '\n' ∨ c = '\r' then none
    else
      match scanToClose rest with
      | none => none
      | some (k, r) => some (c :: k, r)

/-- Fuelled scanner for placeholder keys.  Every step consumes at least
one character, so fuel equal to the string length is always enough; the
fuel only makes the recursion structural (and hence kernel-reducible). -/
def extractKeysF : Nat → Str → List Str
  | 0, _ => []
  | _, [] => []
  | fuel + 1, c :: rest =>
    if c = '$' then
      match rest with
      | [] => []
      | c2 :: rest2 =>
        if c2 = obraceC then
          match grabKey rest2 with
          | some (k, r) => k :: extractKeysF fuel r
          | none => extractKeysF fuel rest2
        else extractKeysF fuel (c2 :: rest2)
    else extractKeysF fuel rest

/-- The keys of all placeholders `$\x7bkey\x7d` of a token, left to right
and non-overlapping, as `placeholderRegex.exec` (game-launcher.ts:374-379)
enumerates them with the non-greedy pattern. -/
def extractKeys (s : Str) : List Str := extractKeysF s.length s

/-- Fuelled core of `replaceAll`; each step consumes at least one
character of the subject. -/
def replaceAllF : Nat → Str → Str → Str → Str
  | 0, _, _, s => s
  | fuel + 1, pat, repl, s =>
    match s with
    | [] => []
    | c :: rest =>
      if pat ≠ [] ∧ pat.isPrefixOf (c :: rest) then
        repl ++ replaceAllF fuel pat repl ((c :: rest).drop pat.length)
      else c :: replaceAllF fuel pat repl rest

/-- JavaScript `result.replace(new RegExp(escapedPattern, 'g'), repl)`:
replace every non-overlapping occurrence of the literal `pat`, left to
right, without rescanning the replacement text.  (`$`-escape sequences
inside the replacement string are not modelled.) -/
def replaceAll (pat repl s : Str) : Str := replaceAllF s.length pat repl s

/-- The literal text `$\x7bkey\x7d` of a placeholder. -/
def mkPlaceholder (key : Str) : Str := '$' :: obraceC :: (key ++ [cbraceC])

/-- The direct property lookup `if (directKey in launchArgs)` of
`replaceArguments` (game-launcher.ts:413-417) followed by
`value?.toString()`: the outer `Option` is property presence (an
interface field name or an `extra` key), the inner `Option Str` the
stringified value. -/
def directValue (la : LaunchArguments) (key : Str) : Option (Option Str) :=
  if key = s2l "username" then some la.username
  else if key = s2l "accessToken" then some la.accessToken
  else if key = s2l "uuid" then some la.uuid
  else if key = s2l "userType" then some la.userType
  else if key = s2l "gameDirectory" then some la.gameDirectory
  else if key = s2l "assetsDirectory" then some la.assetsDirectory
  else if key = s2l "assetIndex" then some la.assetIndex
  else if key = s2l "versionName" then some la.versionName
  else if key = s2l "versionType" then some la.versionType
  else if key = s2l "width" then some (la.width.map natToStr)
  else if key = s2l "height" then some (la.height.map natToStr)
  else if key = s2l "fullscreen" then some (la.fullscreen.map boolToStr)
  else if key = s2l "serverHost" then some la.serverHost
  else if key = s2l "serverPort" then some (la.serverPort.map natToStr)
  else if key = s2l "proxyHost" then some la.proxyHost
  else if key = s2l "proxyPort" then some (la.proxyPort.map natToStr)
  else if key = s2l "proxyUser" then some la.proxyUser
  else if key = s2l "proxyPass" then some la.proxyPass
  else if key = s2l "customJvmArgs" then some (la.customJvmArgs.map (joinSep ','))
  else if key = s2l "customGameArgs" then some (la.customGameArgs.map (joinSep ','))
  else if key = s2l "maxMemory" then some (la.maxMemory.map natToStr)
  else if key = s2l "minMemory" then some (la.minMemory.map natToStr)
  else if key = s2l "isDemoUser" then some (la.isDemoUser.map boolToStr)
  else if key = s2l "quickPlayPath" then some la.quickPlayPath
  else if key = s2l "quickPlaySingleplayer" then some la.quickPlaySingleplayer
  else if key = s2l "quickPlayMultiplayer" then some la.quickPlayMultiplayer
  else if key = s2l "quickPlayRealms" then some la.quickPlayRealms
  else if key = s2l "clientId" then some la.clientId
  else if key = s2l "xuid" then some la.xuid
  else
    match la.extra.find? (fun p => p.1 = key) with
    | some p => some (some p.2)
    | none => none

/-- The `propertyMappings` table of `replaceArguments`
(game-launcher.ts:393-411), consulted when the direct lookup misses:
the outer `Option` is table membership, the inner `Option Str` the
mapped field's stringified value. -/
def mappedValue (la : LaunchArguments) (key : Str) : Option (Option Str) :=
  if key = s2l "auth_player_name" then some la.username
  else if key = s2l "version_name" then some la.versionName
  else if key = s2l "game_directory" then some la.gameDirectory
  else if key = s2l "assets_root" then some la.assetsDirectory
  else if key = s2l "assets_index_name" then some la.assetIndex
  else if key = s2l "auth_uuid" then some la.uuid
  else if key = s2l "auth_access_token" then some la.accessToken
  else if key = s2l "clientid" then some la.clientId
  else if key = s2l "auth_xuid" then some la.xuid
  else if key = s2l "user_type" then some la.userType
  else if key = s2l "version_type" then some la.versionType
  else if key = s2l "resolution_width" then some (la.width.map natToStr)
  else if key = s2l "resolution_height" then some (la.height.map natToStr)
  else if key = s2l "quickPlayPath" then some la.quickPlayPath
  else if key = s2l "quickPlaySingleplayer" then some la.quickPlaySingleplayer
  else if key = s2l "quickPlayMultiplayer" then some la.quickPlayMultiplayer
  else if key = s2l "quickPlayRealms" then some la.quickPlayRealms
  else none

/-- Resolve one placeholder key as `replaceArguments`
(game-launcher.ts:381-423) does: the four built-ins first
(`natives_directory` always resolves, with `versionName || 'unknown'`;
`launcher_name` / `launcher_version` fall back to constants;
`classpath` is the optional classpath argument), then the direct
property lookup, then the `propertyMappings` table. -/
def resolvePlaceholder (env : LauncherEnv) (la : LaunchArguments)
    (classpath : Option Str) (key : Str) : Option Str :=
  if key = s2l "natives_directory" then
    let vn := orDefaultStr la.versionName (s2l "unknown")
    some (joinSep env.psep [env.dataDir, s2l "versions", vn, vn ++ s2l "-natives"])
  else if key = s2l "launcher_name" then
    some (orDefaultStr env.launcherName (s2l "minecraft-launcher-sdk"))
  else if key = s2l "launcher_version" then
    some (orDefaultStr env.launcherVersion (s2l "1.0.0"))
  else if key = s2l "classpath" then classpath
  else
    match directValue la key with
    | some v => v
    | none =>
      match mappedValue la key with
      | some v => v
      | none => none

/-- `GameLauncher.replaceArguments` (game-launcher.ts:369-437): collect
the placeholder keys of the token; for each key in order, when its
resolution is defined and non-empty, globally replace the literal
placeholder text in the accumulated result; otherwise mark the token
unresolved.  A token with any unresolved placeholder becomes `none`
(it is dropped by the callers). -/
def replaceArguments (env : LauncherEnv) (la : LaunchArguments)
    (classpath : Option Str) (arg : Str) : Option Str :=
  let step := fun (acc : Str × Bool) (k : Str) =>
    match resolvePlaceholder env la classpath k with
    | some v => if v.isEmpty then (acc.1, true) else (replaceAll (mkPlaceholder k) v acc.1, acc.2)
    | none => (acc.1, true)
  let res := (extractKeys arg).foldl step (arg, false)
  if res.2 then none else some res.1

/-- `GameLauncher.processComplexArgumentValue` (game-launcher.ts:320-360):
walk the `value` array; a string starting with `--` that is followed by
a string containing `$\x7b` is a flag/value pair: both are emitted iff
the value resolves, and the flag is emitted VERBATIM (no substitution);
a `--` string followed by anything else is emitted verbatim and the
walk continues at the follower; any other string goes through
`replaceArguments` and is dropped when that returns `null`; non-strings
are skipped. -/
def processComplexArgumentValue (env : LauncherEnv) (la : LaunchArguments)
    (classpath : Option Str) : List ArgValItem → List Str
  | [] => []
  | .other :: rest => processComplexArgumentValue env la classpath rest
  | [.str current] =>
    (match replaceArguments env la classpath current with
     | some v => [v]
     | none => [])
  | .str current :: next :: rest2 =>
    if startsWithStr current (s2l "--") then
      match next with
      | .str n =>
        if containsSub n (s2l "$\x7b") then
          match replaceArguments env la classpath n with
          | some v => current :: v :: processComplexArgumentValue env la classpath rest2
          | none => processComplexArgumentValue env la classpath rest2
        else current :: processComplexArgumentValue env la classpath (next :: rest2)
      | .other => current :: processComplexArgumentValue env la classpath (next :: rest2)
    else
      (match replaceArguments env la classpath current with
       | some v => [v]
       | none => []) ++ processComplexArgumentValue env la classpath (next :: rest2)

/-- `GameLauncher.processArgumentArray` (game-launcher.ts:282-311): plain
strings go through `replaceArguments` (dropped when unresolved); a
`{rules, value}` record is evaluated only when its rules allow, with an
array `value` handled by `processComplexArgumentValue` and a string
`value` by `replaceArguments`; anything else contributes nothing.  The
classpath is forwarded only for JVM arguments. -/
def processArgumentArray (env : LauncherEnv) (la : LaunchArguments)
    (isJvmArgs : Bool) (classpath : Option Str) (entries : List ArgEntry) : List Str :=
  let cp := if isJvmArgs then classpath else none
  entries.flatMap (fun arg =>
    match arg with
    | .plain s => (replaceArguments env la cp s).toList
    | .gated rules v =>
      if evaluateRules env.host la rules then
        match v with
        | .varr items => processComplexArgumentValue env la cp items
        | .vstr s => (replaceArguments env la cp s).toList
        | .vother => []
      else []
    | .other => [])

/-- The final composition of `GameLauncher.generateLaunchCommand`
(game-launcher.ts:107): the command is the single string
`javaPath ++ " " ++ args.join(' ')` where `args` is
`jvmArgs ++ [mainClass] ++ gameArgs`. -/
def generateLaunchCommandStr (javaPath : Str) (args : List Str) : Str :=
  javaPath ++ ' ' :: joinSpace args

/-- `GameLauncher.launchGame` (game-launcher.ts:132): the argv passed to
`spawn` is `command.split(' ').slice(1)`. -/
def launchGameArgv (command : Str) : List Str :=
  (splitSpace command).drop 1

/-- `GameLauncher.launchGame` (game-launcher.ts:133): the program is
`command.split(' ')[0]`. -/
def launchGameProgram (command : Str) : Str :=
  (splitSpace command).headD []

/-- `FabricInstaller.mergeFabricConfig` (fabric-installer source:369-420):
start from a copy of the base; overwrite `mainClass` when the profile has
a (truthy) one; append the profile's libraries; append the profile's
`arguments.jvm` / `arguments.game` onto the (possibly empty) base
arrays; copy the legacy `minecraftArguments` only when the merged
document still has no `arguments` object; copy `inheritsFrom` and `jar`
when present; record the profile id in `fabricVersion`; and finally
overwrite the top-level `id` with the profile's id when present. -/
def mergeFabricConfig (base overlay : VersionInfo) : VersionInfo :=
  let m := base
  let m := match strPresent overlay.mainClass with
    | some mc => { m with mainClass := some mc }
    | none => m
  let m := match overlay.libraries with
    | some ls => { m with libraries := some (m.libraries.getD [] ++ ls) }
    | none => m
  let m := match overlay.arguments with
    | some oa =>
      let ma := m.arguments.getD {}
      let jvm := match oa.jvm with
        | some oj => some (ma.jvm.getD [] ++ oj)
        | none => ma.jvm
      let game := match oa.game with
        | some og => some (ma.game.getD [] ++ og)
        | none => ma.game
      { m with arguments := some { jvm := jvm, game := game } }
    | none => m
  let m := match strPresent overlay.minecraftArguments with
    | some s => if m.arguments.isNone then { m with minecraftArguments := some s } else m
    | none => m
  let m := match strPresent overlay.inheritsFrom with
    | some s => { m with inheritsFrom := some s }
    | none => m
  let m := match strPresent overlay.jar with
    | some s => { m with jar := some s }
    | none => m
  let m := { m with fabricVersion := overlay.id }
  match strPresent overlay.id with
  | some i => { m with id := some i }
  | none => m

/-- `ForgeInstaller.mergeForgeConfig` (forge-installer source:397-443):
the same merge, except that the overlay id is recorded in
`forgeVersion` and the top-level `id` is NOT overwritten. -/
def mergeForgeConfig (base overlay : VersionInfo) : VersionInfo :=
  let m := base
  let m := match overlay.libraries with
    | some ls => { m with libraries := some (m.libraries.getD [] ++ ls) }
    | none => m
  let m := match strPresent overlay.mainClass with
    | some mc => { m with mainClass := some mc }
    | none => m
  let m := match overlay.arguments with
    | some oa =>
      let ma := m.arguments.getD {}
      let jvm := match oa.jvm with
        | some oj => some (ma.jvm.getD [] ++ oj)
        | none => ma.jvm
      let game := match oa.game with
        | some og => some (ma.game.getD [] ++ og)
        | none => ma.game
      { m with arguments := some { jvm := jvm, game := game } }
    | none => m
  let m := match strPresent overlay.minecraftArguments with
    | some s => if m.arguments.isNone then { m with minecraftArguments := some s } else m
    | none => m
  let m := match strPresent overlay.inheritsFrom with
    | some s => { m with inheritsFrom := some s }
    | none => m
  let m := match strPresent overlay.jar with
    | some s => { m with jar := some s }
    | none => m
  { m with forgeVersion := overlay.id }

/-- The on-disk descriptor store `versions/<name>/<name>.json`, as a map
from version name to descriptor. -/
def updateStore (store : Str → Option VersionInfo) (name : Str) (d : VersionInfo) :
    Str → Option VersionInfo :=
  fun v => if v = name then some d else store v

/-- `FabricInstaller.installFabric` (fabric-installer source:236-361),
restricted to its effect on the descriptor store: fail (`none`) when the
target version directory / descriptor does not exist; otherwise read the
target's descriptor, merge the fetched Fabric profile into it with
`mergeFabricConfig`, and write the result back to the SAME
`versions/<target>/<target>.json`.  The subsequent library and Fabric
API downloads do not touch the descriptor and are not modelled. -/
def installFabric (store : Str → Option VersionInfo) (target : Str)
    (profile : VersionInfo) : Option (Str → Option VersionInfo) :=
  match store target with
  | none => none
  | some base => some (updateStore store target (mergeFabricConfig base profile))

/-- The outcome of the single HTTP attempt inside
`FileDownloader.downloadFile` (downloader.ts:40-139).  Redirect handling
recurses with identical arguments and is not modelled separately. -/
inductive FetchOutcome where
  /-- A non-success, non-redirect status: the promise is rejected before
  the write stream is created. -/
  | badStatus (code : Nat)
  /-- A request-level error before any response: nothing was written. -/
  | requestFailed
  /-- The body streamed completely and the writer finished. -/
  | streamed (content : Str)
  /-- The response or the writer errored after `written` was streamed
  into the (truncated) destination file. -/
  | streamFailed (written : Str)
  /-- The 60 s inactivity timeout fired; `written` is the partial file
  content when the writer had already been created. -/
  | timedOut (written : Option Str)
deriving DecidableEq

/-- What `FileDownloader.downloadFile` leaves behind: `value = some b`
when the returned promise resolves with `b`, `value = none` when it
rejects (the error propagates to the caller); `file` is the content at
the destination path afterwards. -/
structure DownloadOutcome where
  value : Option Bool
  file : Option Str
deriving DecidableEq

/-- `FileDownloader.downloadFile` (downloader.ts:21-155).  File contents
are abstract strings and `sha1` is an abstract digest function.  The
short-circuit (lines 32-35) succeeds without touching the network when
the pre-existing file already hashes to `expectedSha1` (compared
case-insensitively, as `validateFileSha1` does).  Inside the promise:
a bad status or request error rejects before a write stream exists, so
the destination keeps whatever was there before; a mid-stream failure
or timeout leaves the partially written file in place; a completed
stream with a digest mismatch unlinks the file and rejects (lines
96-105).  The `catch` block of lines 141-154, which would delete the
partial file and resolve `false`, never runs for any of these paths:
the promise is returned from the `try` without `await`, so its
rejection bypasses the `catch` and propagates to the caller. -/
def downloadFile (sha1 : Str → Str) (expectedSha1 : Option Str)
    (preexisting : Option Str) (outcome : FetchOutcome) : DownloadOutcome :=
  let cacheHit : Bool := match expectedSha1, preexisting with
    | some e, some c => toLowerStr (sha1 c) == toLowerStr e
    | _, _ => false
  if cacheHit then { value := some true, file := preexisting }
  else
    match outcome with
    | .badStatus _ => { value := none, file := preexisting }
    | .requestFailed => { value := none, file := preexisting }
    | .streamed c =>
      match expectedSha1 with
      | some e =>
        if toLowerStr (sha1 c) = toLowerStr e then { value := some true, file := some c }
        else { value := none, file := none }
      | none => { value := some true, file := some c }
    | .streamFailed w => { value := none, file := some w }
    | .timedOut w =>
      match w with
      | some c => { value := none, file := some c }
      | none => { value := none, file := preexisting }

/-- The per-item outcome a batch item's `downloadFile` call produces:
its promise resolves with a boolean or rejects. -/
inductive ItemOutcome where
  | done (success : Bool)
  | raised
deriving DecidableEq

/-- The aggregate a batch returns: counters and the per-file success
flags. -/
structure BatchOutcome where
  success : Nat
  failed : Nat
  results : List Bool
deriving DecidableEq

/-- The per-item bookkeeping of `FileDownloader.downloadFiles`
(downloader.ts:211-241): a resolved `true` counts as success, a
resolved `false` as failure, and a rejection is caught and also counts
as failure; in every case exactly one result entry is pushed and the
worker then takes the next queued item. -/
def runBatch : List ItemOutcome → BatchOutcome
  | [] => { success := 0, failed := 0, results := [] }
  | o :: rest =>
    let r := runBatch rest
    match o with
    | .done true => { success := r.success + 1, failed := r.failed, results := true :: r.results }
    | .done false => { success := r.success, failed := r.failed + 1, results := false :: r.results }
    | .raised => { success := r.success, failed := r.failed + 1, results := false :: r.results }

/-- `FileDownloader.downloadFiles` (downloader.ts:189-265): `maxConcurrent`
workers each process queued items to exhaustion (modelled in queue order;
completion order of concurrent peers does not affect the counters).  With
`maxConcurrent = 0` and a non-empty queue no worker ever starts and the
completion poll never fires, so the call never returns (`none`). -/
def downloadFiles (maxConcurrent : Nat) (items : List ItemOutcome) : Option BatchOutcome :=
  if maxConcurrent = 0 ∧ items ≠ [] then none
  else some (runBatch items)

/-- The cache file `version_manifest.json`: `{cacheTime, manifest}`, with
a missing `cacheTime` already folded to `0` (`cacheData.cacheTime || 0`)
and a possibly missing `manifest` member.  The manifest document itself
is opaque. -/
structure ManifestCacheFile where
  cacheTime : Int := 0
  manifest : Option Str := none
deriving DecidableEq

/-- What reading the on-disk cache can yield: no file, an unreadable
file (`fs.readJson` throws and the code falls through with a warning),
or a parsed cache file. -/
inductive DiskCache where
  | missing
  | unreadable
  | ok (f : ManifestCacheFile)
deriving DecidableEq

/-- The `VersionManager` state that `getVersionManifest` consults: the
in-memory manifest and the on-disk cache. -/
structure VMState where
  versionManifest : Option Str := none
  disk : DiskCache := .missing
deriving DecidableEq

/-- `VersionManager.getVersionManifest` (version-manager.ts:36-80).
Result: `(manifest, new state, network-used flag)`, or `none` when the
fetch is needed and fails (the code throws).  With `!forceRefresh`: an
in-memory manifest is returned as is; otherwise a readable disk cache
with `Date.now() - cacheTime < 24*60*60*1000` installs its `manifest`
member in memory and returns it when present; in every other case the
manifest is fetched (`net`), stored in memory, and written to disk with
`cacheTime := now`. -/
def getVersionManifest (forceRefresh : Bool) (st : VMState) (now : Int)
    (net : Option Str) : Option (Str × VMState × Bool) :=
  let fetch : Option (Str × VMState × Bool) :=
    match net with
    | none => none
    | some m =>
      some (m, { versionManifest := some m,
                 disk := .ok { cacheTime := now, manifest := some m } }, true)
  match st.versionManifest, forceRefresh with
  | some m, false => some (m, st, false)
  | _, _ =>
    if forceRefresh then fetch
    else
      match st.disk with
      | .ok f =>
        if now - f.cacheTime < 24 * 60 * 60 * 1000 then
          match f.manifest with
          | some m => some (m, { st with versionManifest := some m }, false)
          | none => fetch
        else fetch
      | _ => fetch

/-- The artifact path of a library (empty when there is no artifact). -/
def artifactPathOf (lib : Library) : Str :=
  ((lib.downloads.bind (fun d => d.artifact)).map (fun a => a.path)).getD []

/-- A concrete Linux/x64 host for the concrete instances below. -/
def exHost : Host := { platform := s2l "linux", arch := s2l "x64" }

/-- A concrete launcher environment. -/
def exEnv : LauncherEnv := { dataDir := s2l "/data", host := exHost }

/-- Concrete launch arguments with a username and a window size. -/
def exLaAlice : LaunchArguments :=
  { username := some (s2l "Alice"), width := some 854, height := some 480 }

/-- An unconditional `allow` rule. -/
def exRuleAllow : Rule := { action := s2l "allow" }

/-- An unconditional `disallow` rule. -/
def exRuleDisallow : Rule := { action := s2l "disallow" }

/-- A concrete plain library with an artifact. -/
def exLibA : Library :=
  { name := s2l "com.mojang:logging:1.0.0"
    downloads := some { artifact := some { path := s2l "com/mojang/logging/1.0.0/logging-1.0.0.jar" } } }

/-- A concrete digest function for the download instances: content `"ok"`
hashes to `"aaaa"`, anything else to `"ffff"`. -/
def exSha1 : Str → Str := fun c => if c = s2l "ok" then s2l "aaaa" else s2l "ffff"

/-- A concrete installed base descriptor for version `1.20.1`. -/
def exBase : VersionInfo :=
  { id := some (s2l "1.20.1")
    mainClass := some (s2l "net.minecraft.client.main.Main")
    libraries := some [exLibA] }

/-- A concrete Fabric profile overlay. -/
def exProfile : VersionInfo :=
  { id := some (s2l "fabric-1.20.1-0.15.11")
    mainClass := some (s2l "net.fabricmc.loader.impl.launch.knot.KnotClient")
    libraries := some [{ name := s2l "net.fabricmc:fabric-loader:0.15.11" }] }

/-- A concrete descriptor store holding only version `1.20.1`. -/
def exStore : Str → Option VersionInfo :=
  fun v => if v = s2l "1.20.1" then some exBase else none
theorem splitSpace_ne_nil (s : Str) : splitSpace s ≠ [] := by
  cases s with
  | nil => simp [splitSpace]
  | cons c rest =>
    simp only [splitSpace]
    split
    · simp
    · split <;> simp

theorem splitSpace_append_space (s t : Str) :
    splitSpace (s ++ ' ' :: t) = splitSpace s ++ splitSpace t := by
  induction s with
  | nil => simp [splitSpace]
  | cons c rest ih =>
    by_cases hc : c = ' '
    · subst hc
      simp [splitSpace, ih]
    · simp only [List.cons_append, splitSpace, if_neg hc]
      have ih' : splitSpace (rest.append (' ' :: t)) = splitSpace rest ++ splitSpace t := ih
      rw [ih']
      cases heq : splitSpace rest with
      | nil => exact absurd heq (splitSpace_ne_nil rest)
      | cons h' t' => simp

theorem splitSpace_joinSpace (args : List Str) (h : args ≠ []) :
    splitSpace (joinSpace args) = args.flatMap splitSpace := by
  induction args with
  | nil => exact absurd rfl h
  | cons a rest ih =>
    cases rest with
    | nil => simp [joinSpace, List.flatMap]
    | cons b rest' =>
      have hne : b :: rest' ≠ [] := by simp
      calc splitSpace (joinSpace (a :: b :: rest'))
          = splitSpace (a ++ ' ' :: joinSpace (b :: rest')) := rfl
        _ = splitSpace a ++ splitSpace (joinSpace (b :: rest')) :=
            splitSpace_append_space _ _
        _ = splitSpace a ++ (b :: rest').flatMap splitSpace := by rw [ih hne]
        _ = (a :: b :: rest').flatMap splitSpace := by simp [List.flatMap]

/-- Fragments produced by `splitSpace` never contain a space. -/
theorem splitSpace_no_space (s : Str) :
    ∀ p ∈ splitSpace s, ' ' ∉ p := by
  induction s with
  | nil =>
    intro p hp
    simp only [splitSpace, List.mem_singleton] at hp
    subst hp
    simp
  | cons c rest ih =>
    intro p hp
    by_cases hc : c = ' '
    · subst hc
      rw [show splitSpace (' ' :: rest) = [] :: splitSpace rest from rfl] at hp
      rcases List.mem_cons.mp hp with h | h
      · simp [h]
      · exact ih p h
    · simp only [splitSpace, if_neg hc] at hp
      obtain ⟨h', t', heq⟩ : ∃ h' t', splitSpace rest = h' :: t' := by
        cases hsp : splitSpace rest with
        | nil => exact absurd hsp (splitSpace_ne_nil rest)
        | cons a b => exact ⟨a, b, rfl⟩
      rw [heq] at hp
      have ihh : ' ' ∉ h' := ih h' (by rw [heq]; exact List.mem_cons_self _ _)
      rcases List.mem_cons.mp hp with h1 | h1
      · subst h1
        intro hmem
        rcases List.mem_cons.mp hmem with h2 | h2
        · exact hc h2.symm
        · exact ihh h2
      · exact ih p (by rw [heq]; exact List.mem_cons_of_mem _ h1)

/-- A string without a space splits into itself alone. -/
theorem splitSpace_of_no_space (s : Str) (h : ' ' ∉ s) :
    splitSpace s = [s] := by
  induction s with
  | nil => rfl
  | cons c rest ih =>
    have hc : c ≠ ' ' := fun hcc => h (by simp [hcc])
    have hr : ' ' ∉ rest := fun hm => h (List.mem_cons_of_mem _ hm)
    simp [splitSpace, hc, ih hr]

/-- A string containing a space splits into at least two fragments. -/
theorem splitSpace_length_of_space (s : Str) (h : ' ' ∈ s) :
    2 ≤ (splitSpace s).length := by
  induction s with
  | nil => simp at h
  | cons c rest ih =>
    by_cases hc : c = ' '
    · subst hc
      have h1 : 0 < (splitSpace rest).length :=
        List.length_pos.mpr (splitSpace_ne_nil rest)
      rw [show splitSpace (' ' :: rest) = [] :: splitSpace rest from rfl]
      simp only [List.length_cons]
      omega
    · have hr : ' ' ∈ rest := by
        rcases List.mem_cons.mp h with h1 | h1
        · exact absurd h1.symm hc
        · exact h1
      simp only [splitSpace, if_neg hc]
      cases hsp : splitSpace rest with
      | nil => exact absurd hsp (splitSpace_ne_nil rest)
      | cons h' t' =>
        have := ih hr
        rw [hsp] at this
        simpa using this

/-- C9: `generateLaunchCommand` returns the launch command as one string
joined with single spaces, and `launchGame` reconstructs the argv by
splitting that string on spaces; consequently the spawned program is the
first space-free fragment, the argv is the space-split of every composed
argument, and any resolved argument value containing a space reaches the
process as at least two separate argv entries — never as the single
original token. -/
theorem c9_join_then_split_breaks_spaced_args
    (jp : Str) (args : List Str) (a : Str)
    (hjp : ' ' ∉ jp) (hargs : args ≠ []) (ha : a ∈ args) (hsp : ' ' ∈ a) :
    launchGameProgram (generateLaunchCommandStr jp args) = jp
    ∧ launchGameArgv (generateLaunchCommandStr jp args) = args.flatMap splitSpace
    ∧ 2 ≤ (splitSpace a).length
    ∧ a ∉ launchGameArgv (generateLaunchCommandStr jp args) := by
  have hsplit : splitSpace (generateLaunchCommandStr jp args)
      = jp :: args.flatMap splitSpace := by
    unfold generateLaunchCommandStr
    rw [splitSpace_append_space jp (joinSpace args),
        splitSpace_joinSpace args hargs, splitSpace_of_no_space jp hjp]
    rfl
  refine ⟨?_, ?_, splitSpace_length_of_space a hsp, ?_⟩
  · unfold launchGameProgram
    rw [hsplit]
    rfl
  · unfold launchGameArgv
    rw [hsplit]
    rfl
  · unfold launchGameArgv
    rw [hsplit]
    intro hmem
    simp only [List.drop_one, List.tail_cons, List.mem_flatMap] at hmem
    obtain ⟨b, _, hb⟩ := hmem
    exact splitSpace_no_space b a hb hsp

/-- C9 witness: a game directory `"My Games"` containing a space is split
into `"My"` and `"Games"` in the spawned argv and does not survive as a
single argument. -/
theorem c9_witness :
    launchGameProgram (generateLaunchCommandStr (s2l "/usr/bin/java")
      [s2l "-Xmx2048m", s2l "net.minecraft.client.main.Main", s2l "--gameDir", s2l "My Games"])
      = s2l "/usr/bin/java"
    ∧ launchGameArgv (generateLaunchCommandStr (s2l "/usr/bin/java")
      [s2l "-Xmx2048m", s2l "net.minecraft.client.main.Main", s2l "--gameDir", s2l "My Games"])
      = [s2l "-Xmx2048m", s2l "net.minecraft.client.main.Main", s2l "--gameDir",
         s2l "My Games"].flatMap splitSpace
    ∧ 2 ≤ (splitSpace (s2l "My Games")).length
    ∧ s2l "My Games" ∉ launchGameArgv (generateLaunchCommandStr (s2l "/usr/bin/java")
      [s2l "-Xmx2048m", s2l "net.minecraft.client.main.Main", s2l "--gameDir", s2l "My Games"]) :=
  c9_join_then_split_breaks_spaced_args (s2l "/usr/bin/java")
    [s2l "-Xmx2048m", s2l "net.minecraft.client.main.Main", s2l "--gameDir", s2l "My Games"]
    (s2l "My Games") (by decide) (by decide) (by decide) (by decide)

theorem evaluateRules_eq_lastMatch (host : Host) (la : LaunchArguments)
    (rules : List Rule)
    (h : ∀ r ∈ rules, r.action = s2l "allow" ∨ r.action = s2l "disallow") :
    evaluateRules host la rules = lastMatchAllowedSpec host la rules := by
  induction rules using List.reverseRecOn with
  | nil => rfl
  | append_singleton l r ih =>
    have hl : ∀ x ∈ l, x.action = s2l "allow" ∨ x.action = s2l "disallow" :=
      fun x hx => h x (List.mem_append_left _ hx)
    have hr : r.action = s2l "allow" ∨ r.action = s2l "disallow" :=
      h r (List.mem_append_right _ (List.mem_singleton_self r))
    have hne : ¬ ((s2l "disallow") = (s2l "allow")) := by decide
    unfold evaluateRules lastMatchAllowedSpec
    rw [List.foldl_append, List.filter_append]
    cases hm : ruleMatches host la r with
    | false =>
      have hfilter : List.filter (fun x => ruleMatches host la x) [r] = [] := by
        simp [List.filter_cons, hm]
      rw [hfilter, List.append_nil]
      have hstep : List.foldl
          (fun allowed x =>
            if x.action = s2l "allow" then
              (if ruleMatches host la x then true else allowed)
            else if x.action = s2l "disallow" then
              (if ruleMatches host la x then false else allowed)
            else allowed)
          (evaluateRules host la l) [r] = evaluateRules host la l := by
        rcases hr with ha | hd
        · simp [ha, hm]
        · simp [hd, hm, hne]
      rw [show List.foldl _ false l = evaluateRules host la l from rfl, hstep]
      exact ih hl
    | true =>
      have hfilter : List.filter (fun x => ruleMatches host la x) [r] = [r] := by
        simp [List.filter_cons, hm]
      rw [hfilter, List.getLast?_concat]
      rcases hr with ha | hd
      · simp [ha, hm]
      · simp [hd, hm, hne]

theorem isLibApplicableGo_no_match (host : Host) (rules : List Rule) (acc : Bool)
    (h : ∀ r ∈ rules, libRuleAppliesToOs host r = false) :
    isLibApplicableGo host rules acc = acc := by
  induction rules generalizing acc with
  | nil => rfl
  | cons r rest ih =>
    have hr := h r (List.mem_cons_self r rest)
    have hrest := fun x hx => h x (List.mem_cons_of_mem r hx)
    unfold isLibApplicableGo
    by_cases ha : r.action = s2l "allow"
    · simp [ha, hr, ih _ hrest]
    · by_cases hd : r.action = s2l "disallow"
      · simp [ha, hd, hr, ih _ hrest]
      · simp [ha, hd, ih _ hrest]

/-- C3 counterexample: the claim fails on the library pipeline.  For the
rule list `[disallow (unconditional), allow (unconditional)]` the last
matching rule is the `allow` (the spec-modelled last-match evaluation
yields `true`), yet `LibrariesDownloader.isLibraryApplicable` returns
`false`: it short-circuits at the matching `disallow` and never reaches
the later `allow`. -/
theorem c3_counterexample :
    isLibraryApplicable exHost
      { name := s2l "org.lwjgl:lwjgl:3.3.1", rules := some [exRuleDisallow, exRuleAllow] } = false
    ∧ lastMatchAllowedSpec exHost {} [exRuleDisallow, exRuleAllow] = true
    ∧ evaluateRules exHost {} [exRuleDisallow, exRuleAllow] = true := by
  decide

/-- C3 amended: the launcher's `evaluateRules` (used for argument entries
and for libraries in the classpath builder) does evaluate rules
left-to-right with the action of the last matching rule winning, starting
from not-allowed (so no matching rule leaves the entry not applicable);
but the library downloader's `isLibraryApplicable` returns `false` at the
FIRST matching `disallow`, ignoring every later rule; a library with no
rule list (and, in the downloader, an empty rule list) is applicable; a
rule list in which no rule matches leaves the library not applicable. -/
theorem c3_amended :
    (∀ (host : Host) (la : LaunchArguments) (rules : List Rule),
       (∀ r ∈ rules, r.action = s2l "allow" ∨ r.action = s2l "disallow") →
       evaluateRules host la rules = lastMatchAllowedSpec host la rules)
    ∧ (∀ (host : Host) (nm : Str) (r : Rule) (rest : List Rule),
       r.action = s2l "disallow" → libRuleAppliesToOs host r = true →
       isLibraryApplicable host { name := nm, rules := some (r :: rest) } = false)
    ∧ (∀ (host : Host) (nm : Str), isLibraryApplicable host { name := nm } = true)
    ∧ (∀ (host : Host) (nm : Str) (rules : List Rule),
       (∀ r ∈ rules, libRuleAppliesToOs host r = false) →
       isLibraryApplicable host { name := nm, rules := some rules } = false ∨ rules = []) := by
  refine ⟨evaluateRules_eq_lastMatch, ?_, ?_, ?_⟩
  · intro host nm r rest hd happ
    have hna : ¬ (r.action = s2l "allow") := by rw [hd]; decide
    unfold isLibraryApplicable isLibApplicableGo
    simp [hna, hd, happ]
    intro hfalse
    exact absurd hfalse (by decide)
  · intro host nm
    rfl
  · intro host nm rules h
    cases rules with
    | nil => right; rfl
    | cons r rest =>
      left
      unfold isLibraryApplicable
      simp only [List.isEmpty_cons]
      rw [if_neg (by simp)]
      exact isLibApplicableGo_no_match host (r :: rest) false h

/-- C3 witness: concrete instances of each amended conjunct, on a
Linux/x64 host — including spec boundary 9: an `allow` rule for
`os.name == windows` and nothing else leaves the library inapplicable
on a non-Windows host. -/
theorem c3_amended_witness :
    evaluateRules exHost {} [exRuleAllow] = lastMatchAllowedSpec exHost {} [exRuleAllow]
    ∧ isLibraryApplicable exHost
        { name := s2l "x", rules := some [exRuleDisallow, exRuleAllow] } = false
    ∧ isLibraryApplicable exHost { name := s2l "x" } = true
    ∧ (isLibraryApplicable exHost
        { name := s2l "x",
          rules := some [{ action := s2l "allow", os := some { name := some (s2l "windows") } }] } = false
       ∨ [({ action := s2l "allow", os := some { name := some (s2l "windows") } } : Rule)] = []) :=
  ⟨c3_amended.1 exHost {} [exRuleAllow] (by decide),
   c3_amended.2.1 exHost (s2l "x") exRuleDisallow [exRuleAllow] (by decide) (by decide),
   c3_amended.2.2.1 exHost (s2l "x"),
   c3_amended.2.2.2 exHost (s2l "x") _ (by decide)⟩

theorem flatMap_eq_map_of_singleton {α β : Type _} (f : α → List β) (g : α → β) :
    ∀ l : List α, (∀ x ∈ l, f x = [g x]) → l.flatMap f = l.map g := by
  intro l
  induction l with
  | nil => intro _; rfl
  | cons x rest ih =>
    intro h
    have hx := h x (List.mem_cons_self x rest)
    have hrest := fun y hy => h y (List.mem_cons_of_mem x hy)
    simp [List.flatMap_cons, hx, ih hrest]

/-- C2 counterexample: the claim fails on the second `buildClasspath`
variant, which emits the main JAR FIRST.  For a descriptor with the
single applicable non-native library `exLibA`, the variant-2 classpath
is `M{sep}A`, not the claimed `A{sep}M`. -/
theorem c2_counterexample :
    buildClasspath2 exEnv { libraries := some [exLibA] } (s2l "1.20.1") ≠
      joinSep exEnv.pdelim
        [joinSep exEnv.psep [exEnv.dataDir, s2l "libraries", artifactPathOf exLibA],
         joinSep exEnv.psep [exEnv.dataDir, s2l "versions", s2l "1.20.1", s2l "1.20.1" ++ s2l ".jar"]]
    ∧ buildClasspath2 exEnv { libraries := some [exLibA] } (s2l "1.20.1") =
      joinSep exEnv.pdelim
        [joinSep exEnv.psep [exEnv.dataDir, s2l "versions", s2l "1.20.1", s2l "1.20.1" ++ s2l ".jar"],
         joinSep exEnv.psep [exEnv.dataDir, s2l "libraries", artifactPathOf exLibA]] := by
  decide

/-- C2 amended: for libraries that are all applicable (no rules), have an
artifact and are not natives, the PRIMARY `buildClasspath` lists the
library paths in descriptor order and appends the main JAR last, joined
with the platform path separator (`A{sep}B{sep}C{sep}M`); the second
variant emits the same entries but with the main JAR FIRST
(`M{sep}A{sep}B{sep}C`). -/
theorem c2_amended (env : LauncherEnv) (libs : List Library) (vn : Str)
    (hall : ∀ lib ∈ libs, lib.rules = none ∧ lib.natives = none
      ∧ (lib.downloads.bind (fun d => d.artifact)).isSome = true
      ∧ containsSub lib.name (s2l "natives") = false) :
    buildClasspath env { libraries := some libs } vn =
      joinSep env.pdelim
        (libs.map (fun lib => joinSep env.psep [env.dataDir, s2l "libraries", artifactPathOf lib])
          ++ [joinSep env.psep [env.dataDir, s2l "versions", vn, vn ++ s2l ".jar"]])
    ∧ buildClasspath2 env { libraries := some libs } vn =
      joinSep env.pdelim
        (joinSep env.psep [env.dataDir, s2l "versions", vn, vn ++ s2l ".jar"]
          :: libs.map (fun lib => joinSep env.psep [env.dataDir, s2l "libraries", artifactPathOf lib])) := by
  constructor
  · unfold buildClasspath
    simp only []
    have hmap : libs.flatMap (fun lib =>
        if (match lib.rules with
            | some rs => !evaluateRules env.host {} rs
            | none => false) then []
        else if lib.natives.isSome then []
        else
          match lib.downloads.bind (fun d => d.artifact) with
          | some a => [joinSep env.psep [env.dataDir, s2l "libraries", a.path]]
          | none => []) =
        libs.map (fun lib => joinSep env.psep [env.dataDir, s2l "libraries", artifactPathOf lib]) := by
      apply flatMap_eq_map_of_singleton
      intro lib hl
      obtain ⟨h1, h2, h3, _⟩ := hall lib hl
      obtain ⟨a, ha⟩ := Option.isSome_iff_exists.mp h3
      rw [h1, ha]
      simp [h2, artifactPathOf, ha]
    rw [hmap]
  · unfold buildClasspath2
    simp only []
    have hmap : libs.flatMap (fun lib =>
        if (match lib.rules with
            | some rs => !evaluateRules2 env.host rs
            | none => false) then []
        else if containsSub lib.name (s2l "natives") then []
        else
          match lib.downloads.bind (fun d => d.artifact) with
          | some a => [joinSep env.psep [env.dataDir, s2l "libraries", a.path]]
          | none => []) =
        libs.map (fun lib => joinSep env.psep [env.dataDir, s2l "libraries", artifactPathOf lib]) := by
      apply flatMap_eq_map_of_singleton
      intro lib hl
      obtain ⟨h1, _, h3, h4⟩ := hall lib hl
      obtain ⟨a, ha⟩ := Option.isSome_iff_exists.mp h3
      rw [h1, ha]
      simp [h4, artifactPathOf, ha]
    rw [hmap]

/-- C2 witness: three applicable plain libraries produce
`A{sep}B{sep}C{sep}M` in the primary builder and `M{sep}A{sep}B{sep}C`
in the second variant. -/
theorem c2_witness :
    buildClasspath exEnv { libraries := some [exLibA,
      { name := s2l "b:b:1", downloads := some { artifact := some { path := s2l "b/b-1.jar" } } },
      { name := s2l "c:c:1", downloads := some { artifact := some { path := s2l "c/c-1.jar" } } }] }
      (s2l "1.20.1") =
      joinSep exEnv.pdelim
        ([exLibA,
          { name := s2l "b:b:1", downloads := some { artifact := some { path := s2l "b/b-1.jar" } } },
          { name := s2l "c:c:1", downloads := some { artifact := some { path := s2l "c/c-1.jar" } } }].map
            (fun lib => joinSep exEnv.psep [exEnv.dataDir, s2l "libraries", artifactPathOf lib])
          ++ [joinSep exEnv.psep [exEnv.dataDir, s2l "versions", s2l "1.20.1", s2l "1.20.1" ++ s2l ".jar"]])
    ∧ buildClasspath2 exEnv { libraries := some [exLibA,
      { name := s2l "b:b:1", downloads := some { artifact := some { path := s2l "b/b-1.jar" } } },
      { name := s2l "c:c:1", downloads := some { artifact := some { path := s2l "c/c-1.jar" } } }] }
      (s2l "1.20.1") =
      joinSep exEnv.pdelim
        (joinSep exEnv.psep [exEnv.dataDir, s2l "versions", s2l "1.20.1", s2l "1.20.1" ++ s2l ".jar"]
          :: [exLibA,
          { name := s2l "b:b:1", downloads := some { artifact := some { path := s2l "b/b-1.jar" } } },
          { name := s2l "c:c:1", downloads := some { artifact := some { path := s2l "c/c-1.jar" } } }].map
            (fun lib => joinSep exEnv.psep [exEnv.dataDir, s2l "libraries", artifactPathOf lib])) :=
  c2_amended exEnv _ (s2l "1.20.1") (by decide)

/-- C1 counterexample: the claim fails for game arguments given as
top-level plain strings (the usual `"--username", "${auth_player_name}"`
shape of real descriptors).  With no username, the value token is
dropped but the preceding flag survives, so the emitted command contains
the game-arg flag `--username` with no value — the pair is not
both-present-or-both-absent. -/
theorem c1_counterexample :
    processArgumentArray exEnv {} false none
      [.plain (s2l "--username"), .plain (s2l "$\x7bauth_player_name\x7d")]
      = [s2l "--username"] := by
  decide

/-- C1 amended: the per-token drop rule holds — a token with any
placeholder whose resolution is undefined or empty resolves to `none`
and contributes nothing, both as a plain entry and inside a
`{rules, value:[...]}` array; and INSIDE a value array a `--flag` token
followed by a placeholder-bearing value token is emitted exactly when
the value resolves (both-or-neither, with the flag emitted verbatim).
For top-level plain entries, however, a flag and its following value
token are processed independently, so a flag can be emitted without its
value (see the counterexample). -/
theorem c1_amended (env : LauncherEnv) (la : LaunchArguments) (cp : Option Str)
    (flag v s : Str) (rest : List ArgValItem)
    (hf : startsWithStr flag (s2l "--") = true)
    (hv : containsSub v (s2l "$\x7b") = true) :
    processComplexArgumentValue env la cp (.str flag :: .str v :: rest) =
      (match replaceArguments env la cp v with
       | some r => [flag, r]
       | none => []) ++ processComplexArgumentValue env la cp rest
    ∧ processArgumentArray env la false cp [.plain s] =
      (replaceArguments env la none s).toList := by
  constructor
  · simp only [processComplexArgumentValue, hf, hv, if_true]
    cases hrep : replaceArguments env la cp v with
    | some r => simp
    | none => simp
  · simp [processArgumentArray]

/-- C1 witness: with both width and height provided, the pair
`["--width", "${resolution_width}"]` is emitted as flag plus resolved
value; and a plain unresolved token contributes nothing. -/
theorem c1_witness :
    processComplexArgumentValue exEnv exLaAlice none
      [.str (s2l "--width"), .str (s2l "$\x7bresolution_width\x7d")] =
      (match replaceArguments exEnv exLaAlice none (s2l "$\x7bresolution_width\x7d") with
       | some r => [s2l "--width", r]
       | none => []) ++ processComplexArgumentValue exEnv exLaAlice none []
    ∧ processArgumentArray exEnv exLaAlice false none [.plain (s2l "$\x7bauth_xuid\x7d")] =
      (replaceArguments exEnv exLaAlice none (s2l "$\x7bauth_xuid\x7d")).toList :=
  c1_amended exEnv exLaAlice none (s2l "--width") (s2l "$\x7bresolution_width\x7d")
    (s2l "$\x7bauth_xuid\x7d") [] (by decide) (by decide)

theorem mergeFabricConfig_fields (b f : VersionInfo) :
    (mergeFabricConfig b f).libraries =
      (match f.libraries with
       | some ls => some (b.libraries.getD [] ++ ls)
       | none => b.libraries)
    ∧ (mergeFabricConfig b f).mainClass =
      (match strPresent f.mainClass with
       | some mc => some mc
       | none => b.mainClass)
    ∧ (mergeFabricConfig b f).id =
      (match strPresent f.id with
       | some i => some i
       | none => b.id)
    ∧ (mergeFabricConfig b f).fabricVersion = f.id := by
  unfold mergeFabricConfig
  cases strPresent f.mainClass <;> cases f.libraries <;> cases f.arguments <;>
    cases strPresent f.minecraftArguments <;> cases strPresent f.inheritsFrom <;>
    cases strPresent f.jar <;> cases strPresent f.id <;>
    simp_all [apply_ite]

theorem mergeForgeConfig_fields (b f : VersionInfo) :
    (mergeForgeConfig b f).libraries =
      (match f.libraries with
       | some ls => some (b.libraries.getD [] ++ ls)
       | none => b.libraries)
    ∧ (mergeForgeConfig b f).mainClass =
      (match strPresent f.mainClass with
       | some mc => some mc
       | none => b.mainClass)
    ∧ (mergeForgeConfig b f).id = b.id
    ∧ (mergeForgeConfig b f).forgeVersion = f.id := by
  unfold mergeForgeConfig
  cases strPresent f.mainClass <;> cases f.libraries <;> cases f.arguments <;>
    cases strPresent f.minecraftArguments <;> cases strPresent f.inheritsFrom <;>
    cases strPresent f.jar <;>
    simp_all [apply_ite]

theorem mergeFabricConfig_libsOf (b f : VersionInfo) :
    libsOf (mergeFabricConfig b f) = libsOf b ++ libsOf f := by
  have h := (mergeFabricConfig_fields b f).1
  unfold libsOf at *
  rw [h]
  cases f.libraries <;> simp

theorem mergeForgeConfig_libsOf (b f : VersionInfo) :
    libsOf (mergeForgeConfig b f) = libsOf b ++ libsOf f := by
  have h := (mergeForgeConfig_fields b f).1
  unfold libsOf at *
  rw [h]
  cases f.libraries <;> simp

theorem installFabric_inv (store : Str → Option VersionInfo) (target : Str)
    (profile : VersionInfo) (st' : Str → Option VersionInfo)
    (h : installFabric store target profile = some st') :
    ∃ base, store target = some base
      ∧ st' = updateStore store target (mergeFabricConfig base profile) := by
  unfold installFabric at h
  cases hs : store target with
  | none => rw [hs] at h; exact absurd h (by simp)
  | some base =>
    rw [hs] at h
    exact ⟨base, rfl, (Option.some.inj h).symm⟩

theorem updateStore_self (store : Str → Option VersionInfo) (target : Str)
    (d : VersionInfo) : updateStore store target d target = some d := by
  unfold updateStore
  simp

/-- C4: both mod-loader merges set `mainClass` to the overlay's (when it
has a non-empty one) and set the libraries to base-then-overlay
concatenation; and `install_fabric` stores exactly the merge of the
target's descriptor with the Fabric profile, so the stored descriptor's
main class is the profile's and its library count is the sum of the two
inputs' counts. -/
theorem c4_merge_and_install
    (b f : VersionInfo) (mc : Str)
    (store : Str → Option VersionInfo) (target : Str)
    (profile base : VersionInfo) (st' : Str → Option VersionInfo)
    (hmc : f.mainClass = some mc) (hne : mc ≠ [])
    (hbase : store target = some base)
    (hinst : installFabric store target profile = some st')
    (hpmc : profile.mainClass = some mc) :
    (mergeFabricConfig b f).mainClass = some mc
    ∧ libsOf (mergeFabricConfig b f) = libsOf b ++ libsOf f
    ∧ (mergeForgeConfig b f).mainClass = some mc
    ∧ libsOf (mergeForgeConfig b f) = libsOf b ++ libsOf f
    ∧ ∃ d, st' target = some d ∧ d = mergeFabricConfig base profile
        ∧ d.mainClass = some mc
        ∧ (libsOf d).length = (libsOf base).length + (libsOf profile).length := by
  have hsp : strPresent f.mainClass = some mc := by
    rw [hmc]
    unfold strPresent
    simp [List.isEmpty_iff, hne]
  have hspp : strPresent profile.mainClass = some mc := by
    rw [hpmc]
    unfold strPresent
    simp [List.isEmpty_iff, hne]
  obtain ⟨base', hb', hst'⟩ := installFabric_inv store target profile st' hinst
  have hbb : base' = base := by
    rw [hbase] at hb'
    exact (Option.some.inj hb').symm
  subst hbb
  refine ⟨?_, mergeFabricConfig_libsOf b f, ?_, mergeForgeConfig_libsOf b f, ?_⟩
  · rw [(mergeFabricConfig_fields b f).2.1, hsp]
  · rw [(mergeForgeConfig_fields b f).2.1, hsp]
  · refine ⟨mergeFabricConfig base' profile, ?_, rfl, ?_, ?_⟩
    · rw [hst']
      exact updateStore_self _ _ _
    · rw [(mergeFabricConfig_fields base' profile).2.1, hspp]
    · rw [mergeFabricConfig_libsOf base' profile, List.length_append]

/-- C4 witness: installing the concrete Fabric profile onto the concrete
`1.20.1` base merges main class and concatenates the library lists. -/
theorem c4_witness :
    (mergeFabricConfig exBase exProfile).mainClass =
      some (s2l "net.fabricmc.loader.impl.launch.knot.KnotClient")
    ∧ libsOf (mergeFabricConfig exBase exProfile) = libsOf exBase ++ libsOf exProfile
    ∧ (mergeForgeConfig exBase exProfile).mainClass =
      some (s2l "net.fabricmc.loader.impl.launch.knot.KnotClient")
    ∧ libsOf (mergeForgeConfig exBase exProfile) = libsOf exBase ++ libsOf exProfile
    ∧ ∃ d, updateStore exStore (s2l "1.20.1") (mergeFabricConfig exBase exProfile)
          (s2l "1.20.1") = some d
        ∧ d = mergeFabricConfig exBase exProfile
        ∧ d.mainClass = some (s2l "net.fabricmc.loader.impl.launch.knot.KnotClient")
        ∧ (libsOf d).length = (libsOf exBase).length + (libsOf exProfile).length :=
  c4_merge_and_install exBase exProfile
    (s2l "net.fabricmc.loader.impl.launch.knot.KnotClient")
    exStore (s2l "1.20.1") exProfile exBase _
    (by decide) (by decide) (by decide) rfl (by decide)

/-- C8 counterexample: `install_fabric` is NOT idempotent on the stored
descriptor.  With the concrete base (one library) and Fabric profile
(one library), a single install stores a descriptor with two libraries
but a second install appends the profile's library again, so the
descriptor after two installs differs from the one after one. -/
theorem c8_counterexample :
    ((installFabric exStore (s2l "1.20.1") exProfile).bind (fun st1 =>
       (installFabric st1 (s2l "1.20.1") exProfile).bind (fun st2 => st2 (s2l "1.20.1"))))
    ≠ ((installFabric exStore (s2l "1.20.1") exProfile).bind (fun st => st (s2l "1.20.1"))) := by
  decide

/-- C8 amended: a second `install_fabric` of the same profile appends the
profile's libraries to the stored descriptor again (so the two-install
descriptor equals the one-install descriptor only when the profile
carries no libraries or arguments), while `main_class`, `id` and
`fabricVersion` are stable across repeated installs. -/
theorem c8_amended (store : Str → Option VersionInfo) (target : Str)
    (profile : VersionInfo) (st1 st2 : Str → Option VersionInfo)
    (h1 : installFabric store target profile = some st1)
    (h2 : installFabric st1 target profile = some st2) :
    ∃ d1 d2, st1 target = some d1 ∧ st2 target = some d2
      ∧ libsOf d2 = libsOf d1 ++ libsOf profile
      ∧ d2.mainClass = d1.mainClass
      ∧ d2.id = d1.id
      ∧ d2.fabricVersion = d1.fabricVersion := by
  obtain ⟨base, hb, hst1⟩ := installFabric_inv store target profile st1 h1
  obtain ⟨base', hb', hst2⟩ := installFabric_inv st1 target profile st2 h2
  have hd1 : st1 target = some (mergeFabricConfig base profile) := by
    rw [hst1]; exact updateStore_self _ _ _
  have hbb : base' = mergeFabricConfig base profile := by
    rw [hd1] at hb'
    exact (Option.some.inj hb').symm
  subst hbb
  refine ⟨mergeFabricConfig base profile,
          mergeFabricConfig (mergeFabricConfig base profile) profile,
          hd1, ?_, mergeFabricConfig_libsOf _ _, ?_, ?_, ?_⟩
  · rw [hst2]; exact updateStore_self _ _ _
  · rw [(mergeFabricConfig_fields (mergeFabricConfig base profile) profile).2.1,
        (mergeFabricConfig_fields base profile).2.1]
    cases strPresent profile.mainClass <;> rfl
  · rw [(mergeFabricConfig_fields (mergeFabricConfig base profile) profile).2.2.1,
        (mergeFabricConfig_fields base profile).2.2.1]
    cases strPresent profile.id <;> rfl
  · rw [(mergeFabricConfig_fields (mergeFabricConfig base profile) profile).2.2.2,
        (mergeFabricConfig_fields base profile).2.2.2]

/-- C8 witness: the amended statement at the concrete store and profile. -/
theorem c8_witness :
    ∃ d1 d2,
      updateStore exStore (s2l "1.20.1") (mergeFabricConfig exBase exProfile)
        (s2l "1.20.1") = some d1
      ∧ updateStore (updateStore exStore (s2l "1.20.1") (mergeFabricConfig exBase exProfile))
          (s2l "1.20.1")
          (mergeFabricConfig (mergeFabricConfig exBase exProfile) exProfile)
          (s2l "1.20.1") = some d2
      ∧ libsOf d2 = libsOf d1 ++ libsOf exProfile
      ∧ d2.mainClass = d1.mainClass
      ∧ d2.id = d1.id
      ∧ d2.fabricVersion = d1.fabricVersion :=
  c8_amended exStore (s2l "1.20.1") exProfile _ _ rfl rfl

/-- C10: the Fabric merge overwrites the stored descriptor's top-level
`id` with the profile's id (a frame effect the shared merge algorithm of
the spec does not list), so after `install_fabric` the stored
descriptor's id is the Fabric id and no longer the target version name;
and both merges record the overlay id in `fabricVersion` /
`forgeVersion` (while the Forge merge leaves `id` untouched). -/
theorem c10_id_overwrite
    (b f : VersionInfo) (i : Str)
    (store : Str → Option VersionInfo) (target : Str)
    (profile base : VersionInfo) (st' : Str → Option VersionInfo)
    (hid : f.id = some i) (hne : i ≠ [])
    (hpid : profile.id = some i) (hnt : i ≠ target)
    (hinst : installFabric store target profile = some st') :
    (mergeFabricConfig b f).id = some i
    ∧ (mergeFabricConfig b f).fabricVersion = f.id
    ∧ (mergeForgeConfig b f).forgeVersion = f.id
    ∧ (mergeForgeConfig b f).id = b.id
    ∧ ∃ d, st' target = some d ∧ d.id = some i ∧ d.id ≠ some target := by
  have hsp : strPresent f.id = some i := by
    rw [hid]
    unfold strPresent
    simp [List.isEmpty_iff, hne]
  have hspp : strPresent profile.id = some i := by
    rw [hpid]
    unfold strPresent
    simp [List.isEmpty_iff, hne]
  obtain ⟨base', hb', hst'⟩ := installFabric_inv store target profile st' hinst
  refine ⟨?_, (mergeFabricConfig_fields b f).2.2.2,
          (mergeForgeConfig_fields b f).2.2.2, (mergeForgeConfig_fields b f).2.2.1, ?_⟩
  · rw [(mergeFabricConfig_fields b f).2.2.1, hsp]
  · refine ⟨mergeFabricConfig base' profile, ?_, ?_, ?_⟩
    · rw [hst']; exact updateStore_self _ _ _
    · rw [(mergeFabricConfig_fields base' profile).2.2.1, hspp]
    · rw [(mergeFabricConfig_fields base' profile).2.2.1, hspp]
      intro hcon
      exact hnt (Option.some.inj hcon)

/-- C10 witness: at the concrete base and profile, the stored id becomes
`fabric-1.20.1-0.15.11` and stops being `1.20.1`. -/
theorem c10_witness :
    (mergeFabricConfig exBase exProfile).id = some (s2l "fabric-1.20.1-0.15.11")
    ∧ (mergeFabricConfig exBase exProfile).fabricVersion = exProfile.id
    ∧ (mergeForgeConfig exBase exProfile).forgeVersion = exProfile.id
    ∧ (mergeForgeConfig exBase exProfile).id = exBase.id
    ∧ ∃ d, updateStore exStore (s2l "1.20.1") (mergeFabricConfig exBase exProfile)
          (s2l "1.20.1") = some d
        ∧ d.id = some (s2l "fabric-1.20.1-0.15.11")
        ∧ d.id ≠ some (s2l "1.20.1") :=
  c10_id_overwrite exBase exProfile (s2l "fabric-1.20.1-0.15.11")
    exStore (s2l "1.20.1") exProfile exBase _
    (by decide) (by decide) (by decide) (by decide) rfl

/-- C5: on the failing input — a download with an expected SHA-1 whose
response stream errors after a partial write — `downloadFile` rejects
but LEAVES the partial file at the destination (first two conjuncts):
the cleanup `catch` of downloader.ts:141-154 is unreachable for promise
rejections because the promise is returned without `await`.  The
integrity half of the claim does hold: a fully streamed body whose
digest mismatches the expected SHA-1 fails and leaves no file (last two
conjuncts). -/
theorem c5_partial_file_survives_stream_error :
    (downloadFile exSha1 (some (s2l "aaaa")) none (.streamFailed (s2l "par"))).value = none
    ∧ (downloadFile exSha1 (some (s2l "aaaa")) none (.streamFailed (s2l "par"))).file
        = some (s2l "par")
    ∧ (downloadFile exSha1 (some (s2l "aaaa")) none (.streamed (s2l "bad"))).value = none
    ∧ (downloadFile exSha1 (some (s2l "aaaa")) none (.streamed (s2l "bad"))).file = none
    ∧ (downloadFile exSha1 (some (s2l "aaaa")) none (.timedOut (some (s2l "par")))).file
        = some (s2l "par") := by
  decide

theorem runBatch_counts (items : List ItemOutcome) :
    (runBatch items).success + (runBatch items).failed = items.length
    ∧ (runBatch items).results.length = items.length := by
  induction items with
  | nil => exact ⟨rfl, rfl⟩
  | cons o rest ih =>
    obtain ⟨ih1, ih2⟩ := ih
    cases o with
    | done b =>
      cases b <;> (unfold runBatch; simp only [List.length_cons]; constructor <;> omega)
    | raised =>
      unfold runBatch
      simp only [List.length_cons]
      constructor <;> omega

/-- C6: with at least one download slot, the batch returns a result for
every input — an individual failure or rejection is caught, counted and
never aborts the batch — and the success and failed counters sum to the
number of input descriptors. -/
theorem c6_batch_counts (maxConcurrent : Nat) (items : List ItemOutcome)
    (h : 1 ≤ maxConcurrent) :
    downloadFiles maxConcurrent items = some (runBatch items)
    ∧ (runBatch items).success + (runBatch items).failed = items.length
    ∧ (runBatch items).results.length = items.length := by
  refine ⟨?_, (runBatch_counts items).1, (runBatch_counts items).2⟩
  unfold downloadFiles
  rw [if_neg]
  intro hcon
  omega

/-- C6 witness: a batch of four items — two successes, one rejection,
one resolved failure — returns all four results with counts `2 + 2`. -/
theorem c6_witness :
    downloadFiles 3 [.done true, .raised, .done false, .done true]
      = some (runBatch [.done true, .raised, .done false, .done true])
    ∧ (runBatch [.done true, .raised, .done false, .done true]).success
      + (runBatch [.done true, .raised, .done false, .done true]).failed
      = ([ItemOutcome.done true, .raised, .done false, .done true]).length
    ∧ (runBatch [.done true, .raised, .done false, .done true]).results.length
      = ([ItemOutcome.done true, .raised, .done false, .done true]).length :=
  c6_batch_counts 3 [.done true, .raised, .done false, .done true] (by decide)

/-- C7: with `force_refresh = false`, an in-memory manifest is returned
directly with the state unchanged and no network I/O; otherwise a
readable on-disk cache whose `cacheTime` is younger than 24 hours is
returned with no network I/O (only installing it in memory); and only
otherwise — here, when every readable cache file is stale or absent —
is the manifest fetched from the network and rewritten with the current
timestamp. -/
theorem c7_manifest_cache_discipline (st : VMState) (now : Int) (net : Option Str) :
    (∀ m, st.versionManifest = some m →
       getVersionManifest false st now net = some (m, st, false))
    ∧ (∀ t m', st.versionManifest = none →
       st.disk = .ok { cacheTime := t, manifest := some m' } →
       now - t < 24 * 60 * 60 * 1000 →
       getVersionManifest false st now net = some (m', { st with versionManifest := some m' }, false))
    ∧ (∀ mn, st.versionManifest = none →
       (∀ f, st.disk = .ok f → ¬ now - f.cacheTime < 24 * 60 * 60 * 1000) →
       net = some mn →
       getVersionManifest false st now net =
         some (mn, { versionManifest := some mn,
                     disk := .ok { cacheTime := now, manifest := some mn } }, true)) := by
  refine ⟨?_, ?_, ?_⟩
  · intro m hm
    unfold getVersionManifest
    rw [hm]
  · intro t m' hm hdisk hfresh
    unfold getVersionManifest
    rw [hm, hdisk]
    simp only [hfresh, if_true]
    rfl
  · intro mn hm hdisk hnet
    unfold getVersionManifest
    rw [hm, hnet]
    cases hd : st.disk with
    | missing => rfl
    | unreadable => rfl
    | ok f =>
      have hstale := hdisk f hd
      simp only [if_neg hstale]
      rfl

/-- C7 witness: a memory hit, a one-hour-old disk cache hit (spec
scenario S1) and a cold fetch, each with the network flag the claim
demands. -/
theorem c7_witness :
    getVersionManifest false { versionManifest := some (s2l "M") } 1000 none
      = some (s2l "M", { versionManifest := some (s2l "M") }, false)
    ∧ getVersionManifest false
        { disk := .ok { cacheTime := 0, manifest := some (s2l "D") } } 3600000 none
      = some (s2l "D", { versionManifest := some (s2l "D"),
                         disk := .ok { cacheTime := 0, manifest := some (s2l "D") } }, false)
    ∧ getVersionManifest false {} 5 (some (s2l "N"))
      = some (s2l "N", { versionManifest := some (s2l "N"),
                         disk := .ok { cacheTime := 5, manifest := some (s2l "N") } }, true) :=
  ⟨(c7_manifest_cache_discipline { versionManifest := some (s2l "M") } 1000 none).1
      (s2l "M") rfl,
   (c7_manifest_cache_discipline
      { disk := .ok { cacheTime := 0, manifest := some (s2l "D") } } 3600000 none).2.1
      0 (s2l "D") rfl rfl (by decide),
   (c7_manifest_cache_discipline {} 5 (some (s2l "N"))).2.2
      (s2l "N") rfl (fun f hf => nomatch hf) rfl⟩
